import Mathlib

/-!
Shallow embedding of the Intcode interpreter of src/day2/main.py
(Advent of Code 2019, day 2) and verification of its specification.

Memory is a Python list of arbitrary-precision integers, modelled as
List Int.  A Python subscript access that raises IndexError is modelled
as Option.none; Python's negative-index resolution (an index i with
-len <= i < 0 denotes position len + i) is modelled faithfully.
-/

/-- Python list read access l[i]: nonnegative indices below the length
succeed, negative indices from -len upward resolve from the end, and
everything else raises IndexError (modelled as none). -/
def pyGet (l : List Int) (i : Int) : Option Int :=
  if 0 ≤ i then l[i.toNat]?
  else if -(l.length : Int) ≤ i then l[(i + l.length).toNat]?
  else none

/-- Python list write access l[i] = v on a copy: same index resolution
as pyGet, returning the updated list or none for IndexError. -/
def pySet (l : List Int) (i : Int) (v : Int) : Option (List Int) :=
  if 0 ≤ i then
    if i < (l.length : Int) then some (l.set i.toNat v) else none
  else if -(l.length : Int) ≤ i then
    some (l.set (i + l.length).toNat v)
  else none

/-- Operation NamedTuple of the source: opcode, size (total word count
consumed, opcode included), and the execute function.  execute may fail
(IndexError or, for the halt operation, TypeError), hence Option. -/
structure Operation where
  opcode : Int
  size : Nat
  execute : List Int → Nat → Option (List Int)

/-- execute_add_operation: reads the three parameter words after the
opcode, reads the two operand cells they address, and writes their sum
to the addressed target cell of a copy of the program. -/
def execute_add_operation (program : List Int) (instruction_pointer : Nat) :
    Option (List Int) := do
  let read_address_1 ← pyGet program ((instruction_pointer : Int) + 1)
  let read_address_2 ← pyGet program ((instruction_pointer : Int) + 2)
  let write_address ← pyGet program ((instruction_pointer : Int) + 3)
  let value_1 ← pyGet program read_address_1
  let value_2 ← pyGet program read_address_2
  pySet program write_address (value_1 + value_2)

/-- execute_multiply_operation: identical addressing pattern to add,
writing the product instead of the sum. -/
def execute_multiply_operation (program : List Int) (instruction_pointer : Nat) :
    Option (List Int) := do
  let read_address_1 ← pyGet program ((instruction_pointer : Int) + 1)
  let read_address_2 ← pyGet program ((instruction_pointer : Int) + 2)
  let write_address ← pyGet program ((instruction_pointer : Int) + 3)
  let value_1 ← pyGet program read_address_1
  let value_2 ← pyGet program read_address_2
  pySet program write_address (value_1 * value_2)

/-- ADD_OPERATION = Operation(opcode=1, size=4, execute=execute_add_operation). -/
def ADD_OPERATION : Operation :=
  { opcode := 1, size := 4, execute := execute_add_operation }

/-- MULTIPLY_OPERATION = Operation(opcode=2, size=4, execute=execute_multiply_operation). -/
def MULTIPLY_OPERATION : Operation :=
  { opcode := 2, size := 4, execute := execute_multiply_operation }

/-- HALT_OPERATION = Operation(opcode=99, size=1, execute=id).  The
source binds Python's builtin id here, a ONE-argument function that
returns an object's address; invoking it as execute(program, pointer)
with two arguments raises TypeError and under no circumstances returns
the program.  That failure is modelled as none.  The interpreter never
invokes this field (it breaks on the halt operation before executing),
so the slip is dead code there. -/
def HALT_OPERATION : Operation :=
  { opcode := 99, size := 1, execute := fun _ _ => none }

/-- OPERATIONS.get(opcode, HALT_OPERATION): the dict maps 1, 2 and 99
to the add, multiply and halt operations; looking up opcode 99 and
looking up an absent key both yield HALT_OPERATION, so the two cases
collapse into the final else branch. -/
def OPERATIONS_get (opcode : Int) : Operation :=
  if opcode = ADD_OPERATION.opcode then ADD_OPERATION
  else if opcode = MULTIPLY_OPERATION.opcode then MULTIPLY_OPERATION
  else HALT_OPERATION

/-- Result of one run of the interpreter: normal halt with the final
memory, a Python IndexError escaping the loop, or fuel exhaustion
(proved unreachable for the fuel simulate_program supplies). -/
inductive SimResult where
  | ok (memory : List Int)
  | err
  | timeout
  deriving DecidableEq

/-- Boolean test for the fuel-exhaustion marker. -/
def SimResult.isTimeout : SimResult → Bool
  | SimResult.timeout => true
  | _ => false

/-- One while-True iteration of simulate_program, with explicit fuel.
Fetch program[pointer] (IndexError ends the run with err), look the
opcode up in the registry, stop returning the current program on the
halt operation, otherwise execute and advance the pointer by the
operation's size.  The Python comparison operation == HALT_OPERATION
compares NamedTuple fields; since the registry only ever yields the
three fixed operations, whose opcodes differ pairwise, it is decided
here by the opcode field. -/
def simulate_program_fuel : Nat → List Int → Nat → SimResult
  | 0, _, _ => SimResult.timeout
  | fuel + 1, program, pointer =>
    match pyGet program (pointer : Int) with
    | none => SimResult.err
    | some opcode =>
      let operation := OPERATIONS_get opcode
      if operation.opcode = HALT_OPERATION.opcode then SimResult.ok program
      else
        match operation.execute program pointer with
        | none => SimResult.err
        | some program2 => simulate_program_fuel fuel program2 (pointer + operation.size)

/-- simulate_program: run the while-True loop from pointer 0.  The fuel
length+1 is sufficient: the pointer grows by 4 on every non-final
iteration and the fetch fails once it passes the end, so the loop always
finishes within that many iterations (proved below). -/
def simulate_program (program : List Int) : SimResult :=
  simulate_program_fuel (program.length + 1) program 0

/-- read_output: return program[0]. -/
def read_output (program : List Int) : Option Int :=
  pyGet program 0

/-- set_program_parameters: copy the program and assign noun to cell 1
and verb to cell 2; either subscript assignment can raise IndexError. -/
def set_program_parameters (program : List Int) (noun verb : Int) :
    Option (List Int) := do
  let configured1 ← pySet program 1 noun
  pySet configured1 2 verb

/-- parameters_yield_target_output: configure a fresh copy with the
noun/verb pair, simulate it to the end, and compare the output cell with
the target.  Any IndexError along the way propagates (none). -/
def parameters_yield_target_output (program : List Int) (noun verb : Int)
    (target_output : Int) : Option Bool :=
  match set_program_parameters program noun verb with
  | none => none
  | some configured_program =>
    match simulate_program configured_program with
    | SimResult.ok final_state =>
      match read_output final_state with
      | none => none
      | some output => some (output == target_output)
    | _ => none

/-- Result of find_parameters_for_output: a returned Parameters pair,
the ValueError raised after the loops are exhausted (NotFound), or an
IndexError propagating out of a trial. -/
inductive SearchOutcome where
  | found (noun verb : Nat)
  | notFound
  | error
  deriving DecidableEq

/-- Inner loop of find_parameters_for_output: for verb in range(100).
none means the loop ran through without returning, so the outer loop
continues; some r means the call finishes with r right away. -/
def find_verb_loop (program : List Int) (target_output : Int) (noun : Nat) :
    List Nat → Option SearchOutcome
  | [] => none
  | verb :: rest =>
    match parameters_yield_target_output program (noun : Int) (verb : Int) target_output with
    | none => some SearchOutcome.error
    | some true => some (SearchOutcome.found noun verb)
    | some false => find_verb_loop program target_output noun rest

/-- Outer loop of find_parameters_for_output: for noun in range(100),
falling through to the ValueError (notFound) when exhausted. -/
def find_noun_loop (program : List Int) (target_output : Int) :
    List Nat → SearchOutcome
  | [] => SearchOutcome.notFound
  | noun :: rest =>
    match find_verb_loop program target_output noun (List.range 100) with
    | some r => r
    | none => find_noun_loop program target_output rest

/-- find_parameters_for_output: scan nouns 0..99 (outer) and verbs
0..99 (inner) in row-major order, returning the first pair whose trial
yields the target output. -/
def find_parameters_for_output (program : List Int) (target_output : Int) :
    SearchOutcome :=
  find_noun_loop program target_output (List.range 100)

/-! Helper lemmas about the Python indexing model. -/

lemma pyGet_eq_getElem (l : List Int) (i : Int) (n : Nat) (h : i = (n : Int)) :
    pyGet l i = l[n]? := by
  subst h
  simp [pyGet]

lemma pySet_eq_set (l : List Int) (i : Int) (v : Int) (n : Nat) (h : i = (n : Int))
    (hn : n < l.length) : pySet l i v = some (l.set n v) := by
  subst h
  have h0 : (0 : Int) ≤ (n : Int) := Int.natCast_nonneg n
  have h1 : (n : Int) < (l.length : Int) := by exact_mod_cast hn
  simp [pySet, h0, h1]

lemma pySet_none_of_ge (l : List Int) (i : Int) (v : Int) (h : (l.length : Int) ≤ i) :
    pySet l i v = none := by
  have h0 : (0 : Int) ≤ i := le_trans (Int.natCast_nonneg _) h
  have h1 : ¬ i < (l.length : Int) := not_lt.mpr h
  simp [pySet, h0, h1]

lemma pyGet_nat_lt {l : List Int} {n : Nat} {c : Int}
    (h : pyGet l (n : Int) = some c) : n < l.length := by
  rw [pyGet_eq_getElem l _ n rfl] at h
  rcases List.getElem?_eq_some_iff.mp h with ⟨hlt, _⟩
  exact hlt

lemma pySet_length {l q : List Int} {i v : Int} (h : pySet l i v = some q) :
    q.length = l.length := by
  unfold pySet at h
  split_ifs at h <;>
    first
      | exact Option.noConfusion h
      | (injection h with h2; subst h2; simp)

lemma execute_add_length {p q : List Int} {ip : Nat}
    (h : execute_add_operation p ip = some q) : q.length = p.length := by
  simp only [execute_add_operation, Option.bind_eq_bind] at h
  rcases Option.bind_eq_some.mp h with ⟨a1, _, h⟩
  rcases Option.bind_eq_some.mp h with ⟨a2, _, h⟩
  rcases Option.bind_eq_some.mp h with ⟨aw, _, h⟩
  rcases Option.bind_eq_some.mp h with ⟨v1, _, h⟩
  rcases Option.bind_eq_some.mp h with ⟨v2, _, h⟩
  exact pySet_length h

lemma execute_multiply_length {p q : List Int} {ip : Nat}
    (h : execute_multiply_operation p ip = some q) : q.length = p.length := by
  simp only [execute_multiply_operation, Option.bind_eq_bind] at h
  rcases Option.bind_eq_some.mp h with ⟨a1, _, h⟩
  rcases Option.bind_eq_some.mp h with ⟨a2, _, h⟩
  rcases Option.bind_eq_some.mp h with ⟨aw, _, h⟩
  rcases Option.bind_eq_some.mp h with ⟨v1, _, h⟩
  rcases Option.bind_eq_some.mp h with ⟨v2, _, h⟩
  exact pySet_length h

lemma SimResult.isTimeout_eq_false {r : SimResult} (h : r ≠ SimResult.timeout) :
    r.isTimeout = false := by
  cases r <;> simp_all [SimResult.isTimeout]

lemma OPERATIONS_get_of_ne {c : Int} (h1 : c ≠ 1) (h2 : c ≠ 2) :
    OPERATIONS_get c = HALT_OPERATION := by
  simp [OPERATIONS_get, ADD_OPERATION, MULTIPLY_OPERATION, h1, h2]

lemma simulate_fuel_no_timeout :
    ∀ (fuel : Nat) (p : List Int) (ptr : Nat),
      p.length + 4 ≤ ptr + 4 * fuel → 1 ≤ fuel →
      simulate_program_fuel fuel p ptr ≠ SimResult.timeout := by
  intro fuel
  induction fuel with
  | zero => intro p ptr _ h1; omega
  | succ f ih =>
    intro p ptr hbound _
    rcases hfetch : pyGet p (ptr : Int) with _ | c
    · simp [simulate_program_fuel, hfetch]
    · have hptr : ptr < p.length := pyGet_nat_lt hfetch
      by_cases hc : (OPERATIONS_get c).opcode = HALT_OPERATION.opcode
      · simp [simulate_program_fuel, hfetch, hc]
      · have hc12 : c = 1 ∨ c = 2 := by
          by_contra hn
          push_neg at hn
          exact hc (by rw [OPERATIONS_get_of_ne hn.1 hn.2])
        rcases hex : (OPERATIONS_get c).execute p ptr with _ | q
        · simp [simulate_program_fuel, hfetch, hc, hex]
        · have hlen : q.length = p.length := by
            rcases hc12 with h1 | h2
            · subst h1
              exact execute_add_length hex
            · subst h2
              exact execute_multiply_length hex
          have hsize : (OPERATIONS_get c).size = 4 := by
            rcases hc12 with h1 | h2 <;> subst_vars <;> rfl
          have hrec := ih q (ptr + (OPERATIONS_get c).size)
            (by rw [hsize, hlen]; omega) (by omega)
          simp only [simulate_program_fuel, hfetch, hc, if_false]
          simpa [hc, hex] using hrec

lemma execute_add_eq_of_reads (p : List Int) (ip : Nat) (A1 A2 AW : Int)
    (h1 : pyGet p ((ip : Int) + 1) = some A1) (h2 : pyGet p ((ip : Int) + 2) = some A2)
    (h3 : pyGet p ((ip : Int) + 3) = some AW) (V1 V2 : Int)
    (hv1 : pyGet p A1 = some V1) (hv2 : pyGet p A2 = some V2) :
    execute_add_operation p ip = pySet p AW (V1 + V2) := by
  simp [execute_add_operation, h1, h2, h3, hv1, hv2]

lemma execute_multiply_eq_of_reads (p : List Int) (ip : Nat) (A1 A2 AW : Int)
    (h1 : pyGet p ((ip : Int) + 1) = some A1) (h2 : pyGet p ((ip : Int) + 2) = some A2)
    (h3 : pyGet p ((ip : Int) + 3) = some AW) (V1 V2 : Int)
    (hv1 : pyGet p A1 = some V1) (hv2 : pyGet p A2 = some V2) :
    execute_multiply_operation p ip = pySet p AW (V1 * V2) := by
  simp [execute_multiply_operation, h1, h2, h3, hv1, hv2]

/-- Claim C2: for every memory image and instruction pointer such that ip+3
and the three addresses stored at cells ip+1, ip+2, ip+3 are within bounds,
the add operation writes the sum of the two addressed operand cells to the
addressed target cell, leaves every other cell unchanged, and its size is 4. -/
theorem claim2_execute_add (p : List Int) (ip : Nat) (a1 a2 aw : Nat) (v1 v2 : Int)
    (hip : ip + 3 < p.length)
    (h1 : p[ip + 1]? = some (a1 : Int)) (h2 : p[ip + 2]? = some (a2 : Int))
    (h3 : p[ip + 3]? = some (aw : Int))
    (hb1 : a1 < p.length) (hb2 : a2 < p.length) (hbw : aw < p.length)
    (hv1 : p[a1]? = some v1) (hv2 : p[a2]? = some v2) :
    ADD_OPERATION.size = 4 ∧
    execute_add_operation p ip = some (p.set aw (v1 + v2)) ∧
    (p.set aw (v1 + v2))[aw]? = some (v1 + v2) ∧
    ∀ j : Nat, j ≠ aw → (p.set aw (v1 + v2))[j]? = p[j]? := by
  have e1 : pyGet p ((ip : Int) + 1) = some (a1 : Int) := by
    rw [pyGet_eq_getElem p _ (ip + 1) (by push_cast; ring)]
    exact h1
  have e2 : pyGet p ((ip : Int) + 2) = some (a2 : Int) := by
    rw [pyGet_eq_getElem p _ (ip + 2) (by push_cast; ring)]
    exact h2
  have e3 : pyGet p ((ip : Int) + 3) = some (aw : Int) := by
    rw [pyGet_eq_getElem p _ (ip + 3) (by push_cast; ring)]
    exact h3
  have ev1 : pyGet p (a1 : Int) = some v1 := by
    rw [pyGet_eq_getElem p _ a1 rfl]
    exact hv1
  have ev2 : pyGet p (a2 : Int) = some v2 := by
    rw [pyGet_eq_getElem p _ a2 rfl]
    exact hv2
  refine ⟨rfl, ?_, ?_, ?_⟩
  · rw [execute_add_eq_of_reads p ip _ _ _ e1 e2 e3 v1 v2 ev1 ev2]
    exact pySet_eq_set p _ _ aw rfl hbw
  · exact List.getElem?_set_self hbw
  · intro j hj
    exact List.getElem?_set_ne (Ne.symm hj)

/-- Witness for C2 at the example program, ip 0: cells 9 and 10 hold 30 and
40, their sum 70 lands in cell 3. -/
theorem claim2_execute_add_witness :
    ADD_OPERATION.size = 4 ∧
    execute_add_operation [1, 9, 10, 3, 2, 3, 11, 0, 99, 30, 40, 50] 0 =
      some ([1, 9, 10, 3, 2, 3, 11, 0, 99, 30, 40, 50].set 3 (30 + 40)) := by
  have h := claim2_execute_add [1, 9, 10, 3, 2, 3, 11, 0, 99, 30, 40, 50] 0 9 10 3 30 40
    (by decide) (by decide) (by decide) (by decide) (by decide) (by decide) (by decide)
    (by decide) (by decide)
  exact ⟨h.1, h.2.1⟩

/-- Claim C3: an opcode value absent from the registry (not 1, 2 or 99) makes
the lookup return the halt operation rather than fail, and the interpreter
encountering it stops immediately, returning the current memory. -/
theorem claim3_unknown_opcode (c : Int) (hc1 : c ≠ 1) (hc2 : c ≠ 2) (hc99 : c ≠ 99) :
    OPERATIONS_get c = HALT_OPERATION ∧
    ∀ (p : List Int) (ptr fuel : Nat), pyGet p (ptr : Int) = some c →
      simulate_program_fuel (fuel + 1) p ptr = SimResult.ok p := by
  refine ⟨OPERATIONS_get_of_ne hc1 hc2, ?_⟩
  intro p ptr fuel hfetch
  simp [simulate_program_fuel, hfetch, OPERATIONS_get_of_ne hc1 hc2]

/-- Witness for C3 at opcode 7 on the one-cell memory [7]. -/
theorem claim3_unknown_opcode_witness :
    OPERATIONS_get 7 = HALT_OPERATION ∧
    simulate_program_fuel 1 [7] 0 = SimResult.ok [7] := by
  have h := claim3_unknown_opcode 7 (by decide) (by decide) (by decide)
  exact ⟨h.1, h.2 [7] 0 0 (by decide)⟩

/-- Claim C4: simulating [1,9,10,3,2,3,11,0,99,30,40,50] halts with 3500 at
address 0. -/
theorem claim4_example_program :
    simulate_program [1, 9, 10, 3, 2, 3, 11, 0, 99, 30, 40, 50] =
      SimResult.ok [3500, 9, 10, 70, 2, 3, 11, 0, 99, 30, 40, 50] ∧
    read_output [3500, 9, 10, 70, 2, 3, 11, 0, 99, 30, 40, 50] = some 3500 :=
  ⟨by decide, by decide⟩

/-- Claim C5: a memory whose cell 0 holds a halt or otherwise unrecognized
opcode is returned unchanged by the interpreter; applied to a final memory
with such a cell 0, this makes a second simulation the identity. -/
theorem claim5_halted_fixed (p : List Int) (c : Int)
    (h0 : pyGet p 0 = some c) (hc1 : c ≠ 1) (hc2 : c ≠ 2) :
    simulate_program p = SimResult.ok p := by
  show simulate_program_fuel (p.length + 1) p 0 = SimResult.ok p
  simp [simulate_program_fuel, h0, OPERATIONS_get_of_ne hc1 hc2]

/-- Witness for C5 on the halt-headed memory [99, 5]. -/
theorem claim5_halted_fixed_witness : simulate_program [99, 5] = SimResult.ok [99, 5] :=
  claim5_halted_fixed [99, 5] 99 (by decide) (by decide) (by decide)

/-- Claim C6 (code bug): the halt operation has size 1 and the interpreter
leaves memory untouched on opcode 99, but the halt operation's execute field
is Python's builtin id, a one-argument function, so invoking it on a memory
and an instruction pointer raises TypeError (modelled none) instead of
returning the memory unchanged. -/
theorem claim6_halt_operation :
    HALT_OPERATION.size = 1 ∧
    simulate_program [99] = SimResult.ok [99] ∧
    HALT_OPERATION.execute [99] 0 = none :=
  ⟨rfl, by decide, rfl⟩

/-- Claim C7: on a program of length at least 3, set_program_parameters
returns a fresh copy holding noun at address 1 and verb at address 2 and the
original values everywhere else; the original list is a value and is not
mutated, the result being built from copies. -/
theorem claim7_set_parameters (p : List Int) (noun verb : Int) (h : 3 ≤ p.length) :
    set_program_parameters p noun verb = some ((p.set 1 noun).set 2 verb) ∧
    ((p.set 1 noun).set 2 verb).length = p.length ∧
    ((p.set 1 noun).set 2 verb)[1]? = some noun ∧
    ((p.set 1 noun).set 2 verb)[2]? = some verb ∧
    ∀ j : Nat, j ≠ 1 → j ≠ 2 → ((p.set 1 noun).set 2 verb)[j]? = p[j]? := by
  have hs1 : pySet p 1 noun = some (p.set 1 noun) :=
    pySet_eq_set p 1 noun 1 (by norm_num) (by omega)
  have hs2 : pySet (p.set 1 noun) 2 verb = some ((p.set 1 noun).set 2 verb) :=
    pySet_eq_set _ 2 verb 2 (by norm_num) (by simp only [List.length_set]; omega)
  refine ⟨?_, by simp, ?_, ?_, ?_⟩
  · simp [set_program_parameters, hs1, hs2]
  · rw [List.getElem?_set_ne (by decide)]
    exact List.getElem?_set_self (by omega)
  · exact List.getElem?_set_self (by simp only [List.length_set]; omega)
  · intro j hj1 hj2
    rw [List.getElem?_set_ne (Ne.symm hj2), List.getElem?_set_ne (Ne.symm hj1)]

/-- Witness for C7 on the length-3 program [9, 9, 9]. -/
theorem claim7_set_parameters_witness :
    set_program_parameters [9, 9, 9] 5 7 = some (([9, 9, 9].set 1 5).set 2 7) :=
  (claim7_set_parameters [9, 9, 9] 5 7 (by decide)).1

/-- Claim C8: with the operand addresses in bounds, an add or multiply whose
write address equals length - 1 succeeds while one whose write address equals
the length fails (IndexError, the modelled OutOfBoundsAccess), and a read
address equal to the length likewise makes the operation fail. -/
theorem claim8_boundary (p : List Int) (ip : Nat) :
    (∀ (a1 a2 : Nat) (aw : Int),
      p[ip + 1]? = some (a1 : Int) → p[ip + 2]? = some (a2 : Int) →
      p[ip + 3]? = some aw → a1 < p.length → a2 < p.length →
      ((aw = (p.length : Int) - 1 →
          (execute_add_operation p ip).isSome = true ∧
          (execute_multiply_operation p ip).isSome = true) ∧
       (aw = (p.length : Int) →
          execute_add_operation p ip = none ∧
          execute_multiply_operation p ip = none)))
    ∧ (p[ip + 1]? = some (p.length : Int) →
        execute_add_operation p ip = none ∧
        execute_multiply_operation p ip = none) := by
  constructor
  · intro a1 a2 aw h1 h2 h3 hb1 hb2
    have e1 : pyGet p ((ip : Int) + 1) = some (a1 : Int) := by
      rw [pyGet_eq_getElem p _ (ip + 1) (by push_cast; ring)]
      exact h1
    have e2 : pyGet p ((ip : Int) + 2) = some (a2 : Int) := by
      rw [pyGet_eq_getElem p _ (ip + 2) (by push_cast; ring)]
      exact h2
    have e3 : pyGet p ((ip : Int) + 3) = some aw := by
      rw [pyGet_eq_getElem p _ (ip + 3) (by push_cast; ring)]
      exact h3
    obtain ⟨v1, hv1⟩ : ∃ v, pyGet p (a1 : Int) = some v := by
      rw [pyGet_eq_getElem p _ a1 rfl]
      exact ⟨_, List.getElem?_eq_getElem hb1⟩
    obtain ⟨v2, hv2⟩ : ∃ v, pyGet p (a2 : Int) = some v := by
      rw [pyGet_eq_getElem p _ a2 rfl]
      exact ⟨_, List.getElem?_eq_getElem hb2⟩
    constructor
    · intro hw
      have hlen : 1 ≤ p.length := by omega
      have hwnat : aw = ((p.length - 1 : Nat) : Int) := by
        rw [hw, Nat.cast_sub hlen, Nat.cast_one]
      constructor
      · rw [execute_add_eq_of_reads p ip _ _ _ e1 e2 e3 v1 v2 hv1 hv2,
            pySet_eq_set p _ _ (p.length - 1) hwnat (by omega)]
        rfl
      · rw [execute_multiply_eq_of_reads p ip _ _ _ e1 e2 e3 v1 v2 hv1 hv2,
            pySet_eq_set p _ _ (p.length - 1) hwnat (by omega)]
        rfl
    · intro hw
      constructor
      · rw [execute_add_eq_of_reads p ip _ _ _ e1 e2 e3 v1 v2 hv1 hv2]
        exact pySet_none_of_ge p _ _ (le_of_eq hw.symm)
      · rw [execute_multiply_eq_of_reads p ip _ _ _ e1 e2 e3 v1 v2 hv1 hv2]
        exact pySet_none_of_ge p _ _ (le_of_eq hw.symm)
  · intro h1
    have e1 : pyGet p ((ip : Int) + 1) = some ((p.length : Nat) : Int) := by
      rw [pyGet_eq_getElem p _ (ip + 1) (by push_cast; ring)]
      exact h1
    have hv : pyGet p ((p.length : Nat) : Int) = none := by
      rw [pyGet_eq_getElem p _ p.length rfl]
      exact List.getElem?_eq_none (le_refl _)
    rcases e2 : pyGet p ((ip : Int) + 2) with _ | A2
    · constructor
      · simp [execute_add_operation, e1, e2]
      · simp [execute_multiply_operation, e1, e2]
    · rcases e3 : pyGet p ((ip : Int) + 3) with _ | AW
      · constructor
        · simp [execute_add_operation, e1, e2, e3]
        · simp [execute_multiply_operation, e1, e2, e3]
      · constructor
        · simp [execute_add_operation, e1, e2, e3, hv]
        · simp [execute_multiply_operation, e1, e2, e3, hv]

/-- Witness for C8: in [1,0,0,3] the write address 3 equals length - 1 and
the add succeeds; in [1,0,0,4] the write address 4 equals the length and the
add fails. -/
theorem claim8_boundary_witness :
    (execute_add_operation [1, 0, 0, 3] 0).isSome = true ∧
    execute_add_operation [1, 0, 0, 4] 0 = none := by
  constructor
  · exact (((claim8_boundary [1, 0, 0, 3] 0).1 0 0 3 (by decide) (by decide) (by decide)
      (by decide) (by decide)).1 (by decide)).1
  · exact (((claim8_boundary [1, 0, 0, 4] 0).1 0 0 4 (by decide) (by decide) (by decide)
      (by decide) (by decide)).2 (by decide)).1

/-- Counterexample for C9 as stated: in [1,-5,0,0] every instruction word is
in bounds and the operand address -5 is negative (hence below the length 4),
yet the add operation faults: a negative address below -len raises
IndexError, so out-of-bounds detection is not confined to addresses at or
past the length. -/
theorem claim9_counterexample :
    execute_add_operation [1, -5, 0, 0] 0 = none ∧
    pyGet [1, -5, 0, 0] (-5) = none :=
  ⟨by decide, by decide⟩

/-- Claim C9 (amended): a negative operand address a with -len <= a < 0 is
silently resolved to position len + a, so the add and multiply succeed
there; an address is rejected as out of bounds exactly when it is at or past
the length or strictly below -len. -/
theorem claim9_negative_addressing (p : List Int) (ip : Nat) (a1 : Int) (a2 aw : Nat)
    (h1 : pyGet p ((ip : Int) + 1) = some a1)
    (h2 : pyGet p ((ip : Int) + 2) = some (a2 : Int))
    (h3 : pyGet p ((ip : Int) + 3) = some (aw : Int))
    (hneg1 : -(p.length : Int) ≤ a1) (hneg2 : a1 < 0)
    (hb2 : a2 < p.length) (hbw : aw < p.length) :
    pyGet p a1 = p[(a1 + p.length).toNat]? ∧
    (execute_add_operation p ip).isSome = true ∧
    (execute_multiply_operation p ip).isSome = true ∧
    ∀ b : Int, pyGet p b = none ↔ (p.length : Int) ≤ b ∨ b < -(p.length : Int) := by
  have hres : pyGet p a1 = p[(a1 + p.length).toNat]? := by
    simp [pyGet, hneg1, not_le.mpr hneg2]
  obtain ⟨v1, hv1⟩ : ∃ v, pyGet p a1 = some v := by
    rw [hres]
    have hlt : (a1 + p.length).toNat < p.length := by omega
    exact ⟨_, List.getElem?_eq_getElem hlt⟩
  obtain ⟨v2, hv2⟩ : ∃ v, pyGet p (a2 : Int) = some v := by
    rw [pyGet_eq_getElem p _ a2 rfl]
    exact ⟨_, List.getElem?_eq_getElem hb2⟩
  refine ⟨hres, ?_, ?_, ?_⟩
  · rw [execute_add_eq_of_reads p ip _ _ _ h1 h2 h3 v1 v2 hv1 hv2,
        pySet_eq_set p _ _ aw rfl hbw]
    rfl
  · rw [execute_multiply_eq_of_reads p ip _ _ _ h1 h2 h3 v1 v2 hv1 hv2,
        pySet_eq_set p _ _ aw rfl hbw]
    rfl
  · intro b
    by_cases hb0 : 0 ≤ b
    · rw [pyGet_eq_getElem p b b.toNat (Int.toNat_of_nonneg hb0).symm,
          List.getElem?_eq_none_iff]
      omega
    · push_neg at hb0
      by_cases hbl : -(p.length : Int) ≤ b
      · have hthis : pyGet p b = p[(b + p.length).toNat]? := by
          simp [pyGet, not_le.mpr hb0, hbl]
        rw [hthis, List.getElem?_eq_none_iff]
        omega
      · have hthis : pyGet p b = none := by
          simp [pyGet, not_le.mpr hb0, hbl]
        rw [hthis]
        simp only [true_iff]
        omega

/-- Witness for C9 on [1,-1,0,0,99]: the operand address -1 resolves to the
last cell (99) and the add succeeds. -/
theorem claim9_negative_addressing_witness :
    (execute_add_operation [1, -1, 0, 0, 99] 0).isSome = true :=
  (claim9_negative_addressing [1, -1, 0, 0, 99] 0 (-1) 0 0 (by decide) (by decide)
    (by decide) (by decide) (by decide) (by decide) (by decide)).2.1

/-- Claim C10: the interpreter terminates on every finite memory image: the
pointer grows by 4 on each executed instruction, so the run finishes (halt
or out-of-bounds fault) within ceil(len/4) + 1 iterations; neither
simulate_program nor the loop run with that exact fuel can time out. -/
theorem claim10_terminates (p : List Int) :
    (simulate_program p).isTimeout = false ∧
    (simulate_program_fuel ((p.length + 3) / 4 + 1) p 0).isTimeout = false := by
  constructor
  · exact SimResult.isTimeout_eq_false
      (simulate_fuel_no_timeout (p.length + 1) p 0 (by omega) (by omega))
  · exact SimResult.isTimeout_eq_false
      (simulate_fuel_no_timeout ((p.length + 3) / 4 + 1) p 0 (by omega) (by omega))

/-! Characterization of the two search loops by induction over the
iteration ranges. -/

lemma find_verb_loop_none (p : List Int) (t : Int) (noun : Nat) :
    ∀ (len v0 : Nat),
      (find_verb_loop p t noun (List.range' v0 len) = none ↔
        ∀ w, v0 ≤ w → w < v0 + len →
          parameters_yield_target_output p (noun : Int) (w : Int) t = some false) := by
  intro len
  induction len with
  | zero =>
    intro v0
    constructor
    · intro _ w h1 h2
      omega
    · intro _
      rfl
  | succ len ih =>
    intro v0
    rw [List.range'_succ]
    rcases htr : parameters_yield_target_output p (noun : Int) (v0 : Int) t with _ | b
    · constructor
      · intro hl
        exfalso
        simp [find_verb_loop, htr] at hl
      · intro hall
        exfalso
        have hx := hall v0 (le_refl _) (by omega)
        rw [htr] at hx
        exact Option.noConfusion hx
    · cases b
      · have hstep : find_verb_loop p t noun (v0 :: List.range' (v0 + 1) len) =
            find_verb_loop p t noun (List.range' (v0 + 1) len) := by
          simp [find_verb_loop, htr]
        rw [hstep, ih (v0 + 1)]
        constructor
        · intro hall w h1 h2
          rcases Nat.eq_or_lt_of_le h1 with h | h
          · rw [← h]
            exact htr
          · exact hall w h (by omega)
        · intro hall w h1 h2
          exact hall w (by omega) (by omega)
      · constructor
        · intro hl
          exfalso
          simp [find_verb_loop, htr] at hl
        · intro hall
          exfalso
          have hx := hall v0 (le_refl _) (by omega)
          rw [htr] at hx
          simp at hx

lemma find_verb_loop_found (p : List Int) (t : Int) (noun : Nat) :
    ∀ (len v0 n v : Nat),
      find_verb_loop p t noun (List.range' v0 len) = some (SearchOutcome.found n v) →
      n = noun ∧ v0 ≤ v ∧ v < v0 + len ∧
      parameters_yield_target_output p (noun : Int) (v : Int) t = some true ∧
      ∀ w, v0 ≤ w → w < v →
        parameters_yield_target_output p (noun : Int) (w : Int) t = some false := by
  intro len
  induction len with
  | zero =>
    intro v0 n v h
    exact Option.noConfusion h
  | succ len ih =>
    intro v0 n v h
    rw [List.range'_succ] at h
    rcases htr : parameters_yield_target_output p (noun : Int) (v0 : Int) t with _ | b
    · exfalso
      simp [find_verb_loop, htr] at h
    · cases b
      · have hstep : find_verb_loop p t noun (v0 :: List.range' (v0 + 1) len) =
            find_verb_loop p t noun (List.range' (v0 + 1) len) := by
          simp [find_verb_loop, htr]
        rw [hstep] at h
        obtain ⟨hn, h1, h2, h3, h4⟩ := ih (v0 + 1) n v h
        refine ⟨hn, by omega, by omega, h3, ?_⟩
        intro w hw1 hw2
        rcases Nat.eq_or_lt_of_le hw1 with heq | hlt
        · rw [← heq]
          exact htr
        · exact h4 w hlt hw2
      · have hx : SearchOutcome.found noun v0 = SearchOutcome.found n v := by
          simpa [find_verb_loop, htr] using h
        obtain ⟨e1, e2⟩ := SearchOutcome.found.inj hx
        refine ⟨e1.symm, ?_, ?_, ?_, ?_⟩
        · omega
        · omega
        · rw [← e2]
          exact htr
        · intro w hw1 hw2
          omega

lemma find_verb_loop_some_shape (p : List Int) (t : Int) (noun : Nat) :
    ∀ (len v0 : Nat) (r : SearchOutcome),
      find_verb_loop p t noun (List.range' v0 len) = some r →
      r = SearchOutcome.error ∨ ∃ v, r = SearchOutcome.found noun v := by
  intro len
  induction len with
  | zero =>
    intro v0 r h
    exact Option.noConfusion h
  | succ len ih =>
    intro v0 r h
    rw [List.range'_succ] at h
    rcases htr : parameters_yield_target_output p (noun : Int) (v0 : Int) t with _ | b
    · left
      have hx : some SearchOutcome.error = some r := by
        rw [← h]
        simp [find_verb_loop, htr]
      exact (Option.some.inj hx).symm
    · cases b
      · have hstep : find_verb_loop p t noun (v0 :: List.range' (v0 + 1) len) =
            find_verb_loop p t noun (List.range' (v0 + 1) len) := by
          simp [find_verb_loop, htr]
        rw [hstep] at h
        exact ih (v0 + 1) r h
      · right
        have hx : some (SearchOutcome.found noun v0) = some r := by
          rw [← h]
          simp [find_verb_loop, htr]
        exact ⟨v0, (Option.some.inj hx).symm⟩

lemma find_verb_loop_error (p : List Int) (t : Int) (noun : Nat) :
    ∀ (len v0 : Nat),
      find_verb_loop p t noun (List.range' v0 len) = some SearchOutcome.error →
      ∃ w, v0 ≤ w ∧ w < v0 + len ∧
        parameters_yield_target_output p (noun : Int) (w : Int) t = none := by
  intro len
  induction len with
  | zero =>
    intro v0 h
    exact Option.noConfusion h
  | succ len ih =>
    intro v0 h
    rw [List.range'_succ] at h
    rcases htr : parameters_yield_target_output p (noun : Int) (v0 : Int) t with _ | b
    · exact ⟨v0, le_refl _, by omega, htr⟩
    · cases b
      · have hstep : find_verb_loop p t noun (v0 :: List.range' (v0 + 1) len) =
            find_verb_loop p t noun (List.range' (v0 + 1) len) := by
          simp [find_verb_loop, htr]
        rw [hstep] at h
        obtain ⟨w, hw1, hw2, hw3⟩ := ih (v0 + 1) h
        exact ⟨w, by omega, by omega, hw3⟩
      · exfalso
        simp [find_verb_loop, htr] at h

lemma find_noun_loop_found (p : List Int) (t : Int) :
    ∀ (len n0 n v : Nat),
      find_noun_loop p t (List.range' n0 len) = SearchOutcome.found n v →
      n0 ≤ n ∧ n < n0 + len ∧
      find_verb_loop p t n (List.range 100) = some (SearchOutcome.found n v) ∧
      ∀ m, n0 ≤ m → m < n → find_verb_loop p t m (List.range 100) = none := by
  intro len
  induction len with
  | zero =>
    intro n0 n v h
    exact SearchOutcome.noConfusion h
  | succ len ih =>
    intro n0 n v h
    rw [List.range'_succ] at h
    rcases hin : find_verb_loop p t n0 (List.range 100) with _ | r
    · have hstep : find_noun_loop p t (n0 :: List.range' (n0 + 1) len) =
          find_noun_loop p t (List.range' (n0 + 1) len) := by
        simp [find_noun_loop, hin]
      rw [hstep] at h
      obtain ⟨h1, h2, h3, h4⟩ := ih (n0 + 1) n v h
      refine ⟨by omega, by omega, h3, ?_⟩
      intro m hm1 hm2
      rcases Nat.eq_or_lt_of_le hm1 with heq | hlt
      · rw [← heq]
        exact hin
      · exact h4 m hlt hm2
    · have hr : r = SearchOutcome.found n v := by
        have hx : find_noun_loop p t (n0 :: List.range' (n0 + 1) len) = r := by
          simp [find_noun_loop, hin]
        rw [← hx, h]
      subst hr
      have hin100 : find_verb_loop p t n0 (List.range' 0 100) =
          some (SearchOutcome.found n v) := by
        rw [← List.range_eq_range']
        exact hin
      obtain ⟨hn, _, _, _, _⟩ := find_verb_loop_found p t n0 100 0 n v hin100
      subst hn
      refine ⟨by omega, by omega, hin, ?_⟩
      intro m hm1 hm2
      omega

lemma find_noun_loop_notFound_of (p : List Int) (t : Int) :
    ∀ (len n0 : Nat),
      (∀ m, n0 ≤ m → m < n0 + len → find_verb_loop p t m (List.range 100) = none) →
      find_noun_loop p t (List.range' n0 len) = SearchOutcome.notFound := by
  intro len
  induction len with
  | zero =>
    intro n0 _
    rfl
  | succ len ih =>
    intro n0 hall
    rw [List.range'_succ]
    have hin : find_verb_loop p t n0 (List.range 100) = none :=
      hall n0 (le_refl _) (by omega)
    have hstep : find_noun_loop p t (n0 :: List.range' (n0 + 1) len) =
        find_noun_loop p t (List.range' (n0 + 1) len) := by
      simp [find_noun_loop, hin]
    rw [hstep]
    exact ih (n0 + 1) (fun m hm1 hm2 => hall m (by omega) (by omega))

lemma find_noun_loop_notFound_elim (p : List Int) (t : Int) :
    ∀ (len n0 : Nat),
      find_noun_loop p t (List.range' n0 len) = SearchOutcome.notFound →
      ∀ m, n0 ≤ m → m < n0 + len → find_verb_loop p t m (List.range 100) = none := by
  intro len
  induction len with
  | zero =>
    intro n0 _ m h1 h2
    omega
  | succ len ih =>
    intro n0 h m h1 h2
    rw [List.range'_succ] at h
    rcases hin : find_verb_loop p t n0 (List.range 100) with _ | r
    · have hstep : find_noun_loop p t (n0 :: List.range' (n0 + 1) len) =
          find_noun_loop p t (List.range' (n0 + 1) len) := by
        simp [find_noun_loop, hin]
      rw [hstep] at h
      rcases Nat.eq_or_lt_of_le h1 with heq | hlt
      · rw [← heq]
        exact hin
      · exact ih (n0 + 1) h m hlt (by omega)
    · exfalso
      have hr : r = SearchOutcome.notFound := by
        have hx : find_noun_loop p t (n0 :: List.range' (n0 + 1) len) = r := by
          simp [find_noun_loop, hin]
        rw [← hx, h]
      subst hr
      have hin100 : find_verb_loop p t n0 (List.range' 0 100) =
          some SearchOutcome.notFound := by
        rw [← List.range_eq_range']
        exact hin
      rcases find_verb_loop_some_shape p t n0 100 0 _ hin100 with hsh | ⟨v, hsh⟩ <;>
        exact SearchOutcome.noConfusion hsh

lemma find_noun_loop_error_elim (p : List Int) (t : Int) :
    ∀ (len n0 : Nat),
      find_noun_loop p t (List.range' n0 len) = SearchOutcome.error →
      ∃ (m w : Nat), n0 ≤ m ∧ m < n0 + len ∧ w < 100 ∧
        parameters_yield_target_output p (m : Int) (w : Int) t = none := by
  intro len
  induction len with
  | zero =>
    intro n0 h
    exact SearchOutcome.noConfusion h
  | succ len ih =>
    intro n0 h
    rw [List.range'_succ] at h
    rcases hin : find_verb_loop p t n0 (List.range 100) with _ | r
    · have hstep : find_noun_loop p t (n0 :: List.range' (n0 + 1) len) =
          find_noun_loop p t (List.range' (n0 + 1) len) := by
        simp [find_noun_loop, hin]
      rw [hstep] at h
      obtain ⟨m, w, hm1, hm2, hw, hnone⟩ := ih (n0 + 1) h
      exact ⟨m, w, by omega, by omega, hw, hnone⟩
    · have hr : r = SearchOutcome.error := by
        have hx : find_noun_loop p t (n0 :: List.range' (n0 + 1) len) = r := by
          simp [find_noun_loop, hin]
        rw [← hx, h]
      subst hr
      have hin100 : find_verb_loop p t n0 (List.range' 0 100) =
          some SearchOutcome.error := by
        rw [← List.range_eq_range']
        exact hin
      obtain ⟨w, hw1, hw2, hnone⟩ := find_verb_loop_error p t n0 100 0 hin100
      exact ⟨n0, w, le_refl _, by omega, by omega, hnone⟩

/-- Counterexample for C1 as stated: on the empty program no pair in the
range satisfies the target condition (the very first trial already raises
IndexError while writing the noun), yet the call does not fail with
NotFound: it propagates the IndexError, a distinct outcome. -/
theorem claim1_counterexample :
    find_parameters_for_output [] 0 = SearchOutcome.error ∧
    parameters_yield_target_output [] 0 0 0 = none :=
  ⟨by decide, by decide⟩

/-- Claim C1 (amended): a returned pair is the lexicographically first pair
in row-major scan order over the 100 x 100 range whose configured run halts
with the target at address 0; when every trial in the range completes
without IndexError, the search returns such a pair when one exists and
otherwise fails with NotFound (ValueError); it never returns a partial or
approximate result. -/
theorem claim1_find_parameters (p : List Int) (t : Int) :
    (∀ n v : Nat, find_parameters_for_output p t = SearchOutcome.found n v →
      n < 100 ∧ v < 100 ∧
      parameters_yield_target_output p (n : Int) (v : Int) t = some true ∧
      ∀ n2 v2 : Nat, n2 < 100 → v2 < 100 → (n2 < n ∨ (n2 = n ∧ v2 < v)) →
        parameters_yield_target_output p (n2 : Int) (v2 : Int) t ≠ some true)
    ∧ ((∀ n v : Nat, n < 100 → v < 100 →
          parameters_yield_target_output p (n : Int) (v : Int) t = some false) →
        find_parameters_for_output p t = SearchOutcome.notFound)
    ∧ ((∀ n v : Nat, n < 100 → v < 100 →
          parameters_yield_target_output p (n : Int) (v : Int) t ≠ none) →
       (∃ n v : Nat, n < 100 ∧ v < 100 ∧
          parameters_yield_target_output p (n : Int) (v : Int) t = some true) →
        ∃ n v : Nat, find_parameters_for_output p t = SearchOutcome.found n v) := by
  refine ⟨?_, ?_, ?_⟩
  · intro n v hf
    unfold find_parameters_for_output at hf
    rw [List.range_eq_range'] at hf
    obtain ⟨hn0, hnlt, hin, hearlier⟩ := find_noun_loop_found p t 100 0 n v hf
    rw [List.range_eq_range'] at hin
    obtain ⟨-, hv0, hvlt, htrue, hfalse⟩ := find_verb_loop_found p t n 100 0 n v hin
    refine ⟨by omega, by omega, htrue, ?_⟩
    intro n2 v2 hn2 hv2 hlex
    rcases hlex with hlt | ⟨heq, hvlt2⟩
    · have hnone := hearlier n2 (by omega) hlt
      rw [List.range_eq_range'] at hnone
      have hfal := (find_verb_loop_none p t n2 100 0).mp hnone v2 (by omega) (by omega)
      rw [hfal]
      simp
    · subst heq
      have hfal := hfalse v2 (by omega) hvlt2
      rw [hfal]
      simp
  · intro hall
    unfold find_parameters_for_output
    rw [List.range_eq_range']
    apply find_noun_loop_notFound_of
    intro m hm1 hm2
    rw [List.range_eq_range']
    exact (find_verb_loop_none p t m 100 0).mpr
      (fun w hw1 hw2 => hall m w (by omega) (by omega))
  · intro hnone hex
    cases hres : find_parameters_for_output p t with
    | found n v => exact ⟨n, v, rfl⟩
    | notFound =>
      exfalso
      obtain ⟨n, v, hn, hv, htrue⟩ := hex
      unfold find_parameters_for_output at hres
      rw [List.range_eq_range'] at hres
      have hin := find_noun_loop_notFound_elim p t 100 0 hres n (by omega) (by omega)
      rw [List.range_eq_range'] at hin
      have hx := (find_verb_loop_none p t n 100 0).mp hin v (by omega) (by omega)
      rw [htrue] at hx
      simp at hx
    | error =>
      exfalso
      unfold find_parameters_for_output at hres
      rw [List.range_eq_range'] at hres
      obtain ⟨m, w, hm0, hmlt, hwlt, hnone2⟩ := find_noun_loop_error_elim p t 100 0 hres
      exact hnone m w (by omega) hwlt hnone2

/-- Witness for C1 on [1,0,0,0,99] with target 2: the pair (0,0) is found
first and its trial indeed yields the target. -/
theorem claim1_find_parameters_witness :
    find_parameters_for_output [1, 0, 0, 0, 99] 2 = SearchOutcome.found 0 0 ∧
    parameters_yield_target_output [1, 0, 0, 0, 99] ((0 : Nat) : Int) ((0 : Nat) : Int) 2 =
      some true := by
  have hf : find_parameters_for_output [1, 0, 0, 0, 99] 2 = SearchOutcome.found 0 0 := by
    decide
  exact ⟨hf, ((claim1_find_parameters [1, 0, 0, 0, 99] 2).1 0 0 hf).2.2.1⟩
